import Mathlib

/-!
Verification of the device-tracker presence-scanning core
(`homeassistant/components/device_tracker/ddwrt.py` and
`homeassistant/components/device_tracker/nmap_tracker.py`)
against its natural-language specification.

The Python code is shallowly embedded: pure helpers become Lean
functions, stateful methods become explicit state-passing functions,
network fetches / probe runs become explicit outcome parameters, and a
Python exception that escapes a method is an `Except.error`.
-/

namespace HADeviceTracker

/-! ## Python string primitives

`str.strip()` and `str.strip(chars)` remove characters from both ends;
`str.split(sep)` splits on every non-overlapping occurrence of a
non-empty separator (Lean's `String.splitOn` has the same semantics).
-/

/-- Characters Python's `str.strip()` removes (ASCII whitespace). -/
def pyIsSpace (c : Char) : Bool :=
  c = ' ' || c = '\t' || c = '\n' || c = '\r' || c = '\x0b' || c = '\x0c'

/-- Drop the longest suffix of `l` whose characters satisfy `p`. -/
def dropWhileEnd (p : Char → Bool) (l : List Char) : List Char :=
  (l.reverse.dropWhile p).reverse

/-- Remove characters satisfying `p` from both ends of `s`
(the semantics of Python's `str.strip`). -/
def stripBy (p : Char → Bool) (s : String) : String :=
  String.mk (dropWhileEnd p (s.data.dropWhile p))

/-- Python `s.strip()`. -/
def pyStrip (s : String) : String :=
  stripBy pyIsSpace s

/-- Python `s.strip(q)` for a single character `q`: removes EVERY
leading and trailing occurrence of `q` (not just one layer). -/
def stripChar (q : Char) (s : String) : String :=
  stripBy (fun c => c = q) s

/-- Uppercase one character (`str.upper()` on the ASCII inputs at
hand). -/
def pyUpperChar (c : Char) : Char :=
  if 'a' ≤ c && c ≤ 'z' then Char.ofNat (c.toNat - 32) else c

/-- Python `s.upper()`. -/
def pyUpper (s : String) : String :=
  String.mk (s.data.map pyUpperChar)

/-- Worker for `pySplit`: scan left to right, breaking at every
non-overlapping occurrence of the (non-empty) separator.  The fuel
argument (instantiated with one more than the input length, an upper
bound on the number of steps) makes the recursion structural. -/
def splitOnListGo (sep : List Char) : Nat → List Char → List Char → List (List Char)
  | 0, acc, _ => [acc.reverse]
  | _ + 1, acc, [] => [acc.reverse]
  | fuel + 1, acc, c :: cs =>
    if sep.isPrefixOf (c :: cs) then
      acc.reverse :: splitOnListGo sep fuel [] (List.drop sep.length (c :: cs))
    else
      splitOnListGo sep fuel (c :: acc) cs

/-- Python `s.split(sep)` for a non-empty separator. -/
def pySplit (s sep : String) : List String :=
  (splitOnListGo sep.data (s.data.length + 1) [] s.data).map String.mk

/-! ## The MAC regular expression

`_MAC_REGEX = re.compile(r'(([0-9A-Fa-f]{1,2}\:){5}[0-9A-Fa-f]{1,2})')`
used via `re.match`, i.e. anchored at the start of the string only: it
succeeds whenever some PREFIX of the string matches.  Because a hex
digit is never a colon, the regex engine's greedy matching is
deterministic and is captured exactly by the functions below. -/

/-- The character class `[0-9A-Fa-f]`. -/
def isHexDigitChar (c : Char) : Bool :=
  ('0' ≤ c && c ≤ '9') || ('A' ≤ c && c ≤ 'F') || ('a' ≤ c && c ≤ 'f')

/-- Consume one `[0-9A-Fa-f]{1,2}\:` group from the front of the list,
returning the remainder on success.  The two patterns are disjoint
since a hex digit is never `:`. -/
def macGroupColon : List Char → Option (List Char)
  | a :: ':' :: rest => if isHexDigitChar a then some rest else none
  | a :: b :: ':' :: rest =>
    if isHexDigitChar a && isHexDigitChar b then some rest else none
  | _ => none

/-- Consume `n` successive `[0-9A-Fa-f]{1,2}\:` groups. -/
def macGroups : Nat → List Char → Option (List Char)
  | 0, rest => some rest
  | n + 1, cs =>
    match macGroupColon cs with
    | some rest => macGroups n rest
    | none => none

/-- The source's `_MAC_REGEX.match(s)` viewed as a Boolean: does a prefix of `s`
match `([0-9A-Fa-f]{1,2}\:){5}[0-9A-Fa-f]{1,2}`?  After the five
colon-terminated groups only one hex digit is required, the rest of
the string being ignored by `re.match`. -/
def macRegexMatch (s : String) : Bool :=
  match macGroups 5 s.data with
  | some (c :: _) => isHexDigitChar c
  | _ => false

/-! ## The DD-WRT payload regular expression

`_DDWRT_DATA_REGEX = re.compile(r'\{(\w+)::([^\}]*)\}')`, used through
`findall`: all non-overlapping matches, scanning left to right and
skipping one character on failure.  Greedy matching of `\w+` and
`[^\}]*` is again deterministic (`:` is not a word character and `}`
is excluded from the value class). -/

/-- Python's `\w` on the ASCII inputs at hand. -/
def isWordChar (c : Char) : Bool :=
  c.isAlphanum || c = '_'

/-- Try to match `\{(\w+)::([^\}]*)\}` at the head of the list; on
success return the two captured groups and the remainder. -/
def ddwrtMatchAt : List Char → Option ((String × String) × List Char)
  | '\x7b' :: rest =>
    let key := rest.takeWhile isWordChar
    let rest2 := rest.dropWhile isWordChar
    if key.isEmpty then none
    else
      match rest2 with
      | ':' :: ':' :: rest3 =>
        let val := rest3.takeWhile (fun c => c ≠ '\x7d')
        match rest3.dropWhile (fun c => c ≠ '\x7d') with
        | '\x7d' :: rest4 => some ((String.mk key, String.mk val), rest4)
        | _ => none
      | _ => none
  | _ => none

/-- The `findall` scan: at each position try to match; on success continue
after the match, otherwise advance one character.  The fuel argument
(instantiated with the input length, an upper bound on the number of
steps since every step consumes at least one character) makes the
recursion structural. -/
def ddwrtFindallGo : Nat → List Char → List (String × String)
  | 0, _ => []
  | _ + 1, [] => []
  | fuel + 1, c :: cs =>
    match ddwrtMatchAt (c :: cs) with
    | some (kv, rest) => kv :: ddwrtFindallGo fuel rest
    | none => ddwrtFindallGo fuel cs

/-- Embedding of `_DDWRT_DATA_REGEX.findall(s)`. -/
def ddwrtFindall (s : String) : List (String × String) :=
  ddwrtFindallGo s.data.length s.data

/-! ## Python dicts

A Python dict is modelled as an insertion-ordered association list
with unique keys; assignment to an existing key updates the value in
place, assignment to a fresh key appends. -/

/-- Python `d[k] = v` on an insertion-ordered association list:
replace the first (in a dict, only) binding of `k` in place, else
append the new binding at the end. -/
def dictInsert : List (String × String) → String → String → List (String × String)
  | [], k, v => [(k, v)]
  | p :: rest, k, v =>
    if p.1 == k then (k, v) :: rest else p :: dictInsert rest k v

/-- Build a dict from a list of pairs, later pairs overwriting earlier
ones (the semantics of Python's dict comprehension). -/
def pyDict (ps : List (String × String)) : List (String × String) :=
  ps.foldl (fun d p => dictInsert d p.1 p.2) []

/-- Embedding of `_parse_ddwrt_response`: dict of all regex matches. -/
def parseDdwrtResponse (data_str : String) : List (String × String) :=
  pyDict (ddwrtFindall data_str)

/-! ## The DD-WRT scanner (`DdWrtDeviceScanner`)

`get_ddwrt_data` performs `requests.get` with a 4-second timeout and
catches ONLY `requests.exceptions.Timeout`; any other exception (for
example `ConnectionError` on a refused connection) escapes the method.
A fetch attempt is therefore an explicit outcome parameter, and an
escaping exception is an `Except.error`. -/

/-- A Python exception escaping a scanner method. -/
inductive PyExc where
  | connectionError
deriving DecidableEq

/-- Outcome of one `requests.get` call. -/
inductive FetchOutcome where
  | timeout
  | connRefused
  | response (status : Nat) (body : String)
deriving DecidableEq

/-- Mutable state of a `DdWrtDeviceScanner` instance.
`last_results` starts as the empty collection; after the first
successful refresh it is the list of active-client entries.
`mac2name` is the lazily rebuilt name index (a Python dict). -/
structure DdWrtState where
  last_results : List String
  mac2name : List (String × String)
  success_init : Bool
deriving DecidableEq

/-- Embedding of `DdWrtDeviceScanner.get_ddwrt_data`: timeout is caught (→ `None`),
a refused connection raises, HTTP 200 parses the body, HTTP 401 is
logged as an authentication failure and yields `None`, any other
status is logged and the method falls through returning `None`. -/
def ddwrtGetData : FetchOutcome → Except PyExc (Option (List (String × String)))
  | .timeout => .ok none
  | .connRefused => .error .connectionError
  | .response status body =>
    if status = 200 then .ok (some (parseDdwrtResponse body))
    else .ok none

/-- The active-client extraction inside `_update_info`: strip
whitespace, strip leading/trailing single quotes, split on
`','` (quote-comma-quote) and keep the entries on which
`_MAC_REGEX.match` succeeds, verbatim. -/
def activeClientExtract (active_clients : String) : List String :=
  (pySplit (stripChar '\x27' (pyStrip active_clients)) "\x27,\x27").filter
    macRegexMatch

/-- The body of `DdWrtDeviceScanner._update_info` (the `@Throttle`
wrapper is modelled separately).  Returns the new state and the
method's Boolean result.  Note the order of operations from the
source: `self.last_results = []` is executed BEFORE the
`active_wireless` field is checked, so a parsed-but-unusable payload
clears the cache. -/
def ddwrtUpdateInfoBody (s : DdWrtState) (f : FetchOutcome) :
    Except PyExc (DdWrtState × Bool) :=
  if s.success_init = false then .ok (s, false)
  else
    match ddwrtGetData f with
    | .error e => .error e
    | .ok none => .ok (s, false)
    | .ok (some data) =>
      if data.isEmpty then .ok (s, false)
      else
        let s1 : DdWrtState := { s with last_results := [] }
        match List.lookup "active_wireless" data with
        | none => .ok (s1, false)
        | some active_clients =>
          if active_clients = "" then .ok (s1, false)
          else
            .ok ({ s1 with
                    last_results := activeClientExtract active_clients },
                 true)

/-- Embedding of `DdWrtDeviceScanner.scan_devices` on a refresh-due call: run
`_update_info`, then return `self.last_results` (with the post-call
state). -/
def ddwrtScanDevices (s : DdWrtState) (f : FetchOutcome) :
    Except PyExc (List String × DdWrtState) :=
  match ddwrtUpdateInfoBody s f with
  | .error e => .error e
  | .ok (s1, _) => .ok (s1.last_results, s1)

/-- The lease-table grouping inside `get_device_name`:
`num_clients = int(len(elements)/5)`; for each group the hardware
address is element `idx*5 + 2` (under the source's bounds guard) and
the display name is element `idx*5`. -/
def buildMac2name (elements : List String) : List (String × String) :=
  (List.range (elements.length / 5)).foldl
    (fun d idx =>
      if idx * 5 + 2 < elements.length then
        dictInsert d (elements.getD (idx * 5 + 2) "")
          (elements.getD (idx * 5) "")
      else d)
    []

/-- The ordered (address, name) pairs the lease-table grouping reads:
one pair per complete 5-field group. -/
def leasePairs (elements : List String) : List (String × String) :=
  (List.range (elements.length / 5)).map
    (fun idx => (elements.getD (idx * 5 + 2) "", elements.getD (idx * 5) ""))

/-- Embedding of `DdWrtDeviceScanner.get_device_name`: if the queried id is already
in `mac2name`, answer from the index with no fetch; otherwise fetch
the lease table, rebuild `mac2name` wholesale and answer from the new
index.  The result is `(answer, new state, number of fetches
performed)`. -/
def ddwrtGetDeviceName (s : DdWrtState) (f : FetchOutcome) (device : String) :
    Except PyExc (Option String × DdWrtState × Nat) :=
  if (List.lookup device s.mac2name).isSome then
    .ok (List.lookup device s.mac2name, s, 0)
  else
    match ddwrtGetData f with
    | .error e => .error e
    | .ok none => .ok (none, s, 1)
    | .ok (some data) =>
      if data.isEmpty then .ok (none, s, 1)
      else
        match List.lookup "dhcp_leases" data with
        | none => .ok (none, s, 1)
        | some dhcp_leases =>
          if dhcp_leases = "" then .ok (none, s, 1)
          else
            let elements :=
              pySplit (stripChar '\x22' (pyStrip dhcp_leases)) "\x22,\x22"
            let m2n := buildMac2name elements
            .ok (List.lookup device m2n, { s with mac2name := m2n }, 1)

/-! ## The nmap scanner (`NmapDeviceScanner`)

Timestamps are integers (an injectable clock).  The probe run
(`scanner.scan`) is a parameter taking the computed exclusion ip list
and returning either a tool error (`PortScannerError`, which the
source catches) or the per-host results; the fallback `_arp` lookup is
a parameter from ip to optional MAC string. -/

/-- The `Device` namedtuple. -/
structure Device where
  mac : String
  name : String
  ip : String
  last_update : Int
deriving DecidableEq

/-- One entry of `result['scan']`: ip, `status.state`, hostname list,
and the optional `addresses.mac`. -/
structure HostInfo where
  ip : String
  state : String
  hostnames : List String
  macAddr : Option String
deriving DecidableEq

/-- Outcome of `scanner.scan`. -/
inductive ProbeOutcome where
  | error
  | ok (hosts : List HostInfo)
deriving DecidableEq

/-- Mutable state of an `NmapDeviceScanner` instance.
`home_interval` is the configured interval (same time unit as the
clock; `0` when the option is absent). -/
structure NmapState where
  last_results : List Device
  home_interval : Int
deriving DecidableEq

/-- Python `info['addresses'].get('mac') or _arp(ipv4)`: the
probe-supplied address if truthy (present and non-empty), else the
fallback lookup. -/
def macOrArp (arp : String → Option String) (ipv4 : String)
    (m : Option String) : Option String :=
  match m with
  | some v => if v = "" then arp ipv4 else some v
  | none => arp ipv4

/-- The carried-over records: when `home_interval` is truthy, the
devices of `last_results` with `last_update > now - home_interval`;
otherwise the empty list. -/
def nmapCarried (s : NmapState) (now1 : Int) : List Device :=
  if s.home_interval ≠ 0 then
    s.last_results.filter (fun d => d.last_update > now1 - s.home_interval)
  else []

/-- The fresh records of one probe run: for each host reported `up`,
name = first reported hostname or else the ip, MAC = probe-supplied
address or else the `_arp` fallback (hosts with no resolvable MAC are
dropped), uppercased, timestamped `now2`. -/
def nmapFresh (now2 : Int) (arp : String → Option String)
    (hosts : List HostInfo) : List Device :=
  hosts.filterMap (fun h =>
    if h.state ≠ "up" then none
    else
      let name := match h.hostnames with
        | [] => h.ip
        | n :: _ => n
      match macOrArp arp h.ip h.macAddr with
      | none => none
      | some mac => some ⟨pyUpper mac, name, h.ip, now2⟩)

/-- The body of `NmapDeviceScanner._update_info`.  `now1` is the clock
reading used for the home-interval boundary, `now2` the (later)
reading stamped on fresh records.  The probe receives the ip list of
the carried-over devices as its exclusion set (`--exclude`). -/
def nmapUpdateInfo (s : NmapState) (now1 now2 : Int)
    (probe : List String → ProbeOutcome) (arp : String → Option String) :
    NmapState × Bool :=
  let carried := nmapCarried s now1
  match probe (carried.map (fun d => d.ip)) with
  | .error => (s, false)
  | .ok hosts =>
    ({ s with last_results := carried ++ nmapFresh now2 arp hosts }, true)

/-- Embedding of `NmapDeviceScanner.scan_devices` on a refresh-due call: run
`_update_info`, then return the MAC list of `self.last_results`. -/
def nmapScanDevices (s : NmapState) (now1 now2 : Int)
    (probe : List String → ProbeOutcome) (arp : String → Option String) :
    List String × NmapState :=
  let s1 := (nmapUpdateInfo s now1 now2 probe arp).1
  (s1.last_results.map (fun d => d.mac), s1)

/-- Embedding of `NmapDeviceScanner.get_device_name`: first name among the records
whose stored MAC equals the queried string, else `None`.  A pure
lookup over the cached results: no fetch is involved. -/
def nmapGetDeviceName (s : NmapState) (mac : String) : Option String :=
  let filter_named :=
    (s.last_results.filter (fun d => d.mac = mac)).map (fun d => d.name)
  match filter_named with
  | [] => none
  | n :: _ => some n

/-! ## The throttle layer -/

/-- Modelled from the spec: the `Throttle` decorator
(`homeassistant.util.Throttle`, applied to `_update_info` with
`MIN_TIME_BETWEEN_SCANS`) is not part of the two source files under
verification.  Section 4.1 of the specification defines it:
`refresh()` attempts a new scan only if `now - lastRefreshAt >=
minInterval`, otherwise it is a no-op; `scan_devices()` calls
`refresh()` then returns the current cached result.  The underlying
refresh is abstracted as the supplied result list of a successful
scan. -/
structure ThrottledScanner where
  lastRefreshAt : Option Int
  cache : List String
deriving DecidableEq

/-- Modelled from the spec: one throttled refresh attempt at time
`now`.  Executes (recording `now` and storing the scan result) iff no
refresh has run yet or `now - lastRefreshAt ≥ minInterval`; the
Boolean reports whether the underlying refresh executed. -/
def throttledScan (minInterval : Int) (ts : ThrottledScanner) (now : Int)
    (fetched : List String) : ThrottledScanner × Bool :=
  match ts.lastRefreshAt with
  | none => (⟨some now, fetched⟩, true)
  | some t0 =>
    if minInterval ≤ now - t0 then (⟨some now, fetched⟩, true)
    else (ts, false)

/-- Modelled from the spec: `scan_devices()` = throttled refresh, then
return the cached result. -/
def scanDevicesThrottled (minInterval : Int) (ts : ThrottledScanner)
    (now : Int) (fetched : List String) :
    ThrottledScanner × List String × Bool :=
  let (ts1, ran) := throttledScan minInterval ts now fetched
  (ts1, ts1.cache, ran)

/-- Run a sequence of `scan_devices()` calls, each given as (call
time, result the underlying scan would produce); returns the final
state and the times at which the underlying refresh actually
executed. -/
def runCalls (minInterval : Int) (ts : ThrottledScanner) :
    List (Int × List String) → ThrottledScanner × List Int
  | [] => (ts, [])
  | c :: rest =>
    let step := throttledScan minInterval ts c.1 c.2
    let tail := runCalls minInterval step.1 rest
    (tail.1, if step.2 then c.1 :: tail.2 else tail.2)

/-! ## Helper lemmas -/

/-- Every fetch outcome other than a refused connection is absorbed by
`get_ddwrt_data`. -/
lemma ddwrtGetData_ok (f : FetchOutcome) (hf : f ≠ .connRefused) :
    ∃ o, ddwrtGetData f = .ok o := by
  cases f with
  | timeout => exact ⟨none, rfl⟩
  | connRefused => exact absurd rfl hf
  | response st b =>
    by_cases h200 : st = 200
    · exact ⟨some (parseDdwrtResponse b), by simp [ddwrtGetData, h200]⟩
    · exact ⟨none, by simp [ddwrtGetData, h200]⟩

/-- The method `_update_info` returns normally on every fetch outcome other than
a refused connection. -/
lemma ddwrtUpdateInfoBody_ok (s : DdWrtState) (f : FetchOutcome)
    (hf : f ≠ .connRefused) :
    ∃ r, ddwrtUpdateInfoBody s f = .ok r := by
  by_cases hs : s.success_init = false
  · exact ⟨(s, false), by simp [ddwrtUpdateInfoBody, hs]⟩
  · obtain ⟨o, ho⟩ := ddwrtGetData_ok f hf
    cases o with
    | none => exact ⟨(s, false), by simp [ddwrtUpdateInfoBody, hs, ho]⟩
    | some data =>
      by_cases hd : data.isEmpty
      · exact ⟨(s, false), by simp [ddwrtUpdateInfoBody, hs, ho, hd]⟩
      · cases hw : List.lookup "active_wireless" data with
        | none =>
          exact ⟨({ s with last_results := [] }, false),
            by simp [ddwrtUpdateInfoBody, hs, ho, hd, hw]⟩
        | some ac =>
          by_cases hac : ac = ""
          · exact ⟨({ s with last_results := [] }, false),
              by simp [ddwrtUpdateInfoBody, hs, ho, hd, hw, hac]⟩
          · exact ⟨({ s with last_results := activeClientExtract ac }, true),
              by simp [ddwrtUpdateInfoBody, hs, ho, hd, hw, hac]⟩

/-- The method `get_device_name` returns normally on every fetch outcome other
than a refused connection. -/
lemma ddwrtGetDeviceName_ok (s : DdWrtState) (f : FetchOutcome) (d : String)
    (hf : f ≠ .connRefused) :
    ∃ r, ddwrtGetDeviceName s f d = .ok r := by
  by_cases hm : (List.lookup d s.mac2name).isSome
  · exact ⟨(List.lookup d s.mac2name, s, 0), by simp [ddwrtGetDeviceName, hm]⟩
  · obtain ⟨o, ho⟩ := ddwrtGetData_ok f hf
    cases o with
    | none => exact ⟨(none, s, 1), by simp [ddwrtGetDeviceName, hm, ho]⟩
    | some data =>
      by_cases hd : data.isEmpty
      · exact ⟨(none, s, 1), by simp [ddwrtGetDeviceName, hm, ho, hd]⟩
      · cases hw : List.lookup "dhcp_leases" data with
        | none => exact ⟨(none, s, 1), by simp [ddwrtGetDeviceName, hm, ho, hd, hw]⟩
        | some dl =>
          by_cases hdl : dl = ""
          · exact ⟨(none, s, 1), by simp [ddwrtGetDeviceName, hm, ho, hd, hw, hdl]⟩
          · exact ⟨(List.lookup d
                (buildMac2name (pySplit (stripChar '\x22' (pyStrip dl)) "\x22,\x22")),
                { s with mac2name :=
                    buildMac2name (pySplit (stripChar '\x22' (pyStrip dl)) "\x22,\x22") },
                1),
              by simp [ddwrtGetDeviceName, hm, ho, hd, hw, hdl]⟩

/-- Lookup distributes over append, preferring the left list. -/
lemma lookup_append (a : String) (l l' : List (String × String)) :
    List.lookup a (l ++ l') =
      match List.lookup a l with
      | some v => some v
      | none => List.lookup a l' := by
  induction l with
  | nil => rfl
  | cons p rest ih =>
    obtain ⟨k, v⟩ := p
    cases hb : a == k <;> simp [List.lookup, hb, ih]

/-- Python dict assignment, seen through lookup. -/
lemma lookup_dictInsert (d : List (String × String)) (k v k' : String) :
    List.lookup k' (dictInsert d k v) =
      if k' == k then some v else List.lookup k' d := by
  induction d with
  | nil => cases hk : k' == k <;> simp [dictInsert, List.lookup, hk]
  | cons p rest ih =>
    cases hp : p.1 == k
    · rw [show dictInsert (p :: rest) k v = p :: dictInsert rest k v from by
        simp [dictInsert, hp]]
      cases hk' : k' == p.1
      · simp [List.lookup, hk', ih]
      · have h1 : k' = p.1 := eq_of_beq hk'
        have h2 : (k' == k) = false := by
          cases hb : k' == k
          · rfl
          · rw [eq_of_beq hb] at h1
            rw [← h1] at hp
            simp [hb] at hp
        simp [List.lookup, hk', h2]
    · rw [show dictInsert (p :: rest) k v = (k, v) :: rest from by
        simp [dictInsert, hp]]
      cases hk : k' == k
      · have h1 : p.1 = k := eq_of_beq hp
        have h2 : (k' == p.1) = false := by rw [h1]; exact hk
        simp [List.lookup, hk, h2]
      · simp [List.lookup, hk]

/-- Folding dict assignments: the LAST binding of a key in the pair
list wins (lookup in the reversed pair list), falling back to the
initial dict. -/
lemma lookup_foldl_dictInsert (k : String) :
    ∀ (ps : List (String × String)) (d : List (String × String)),
      List.lookup k (ps.foldl (fun d p => dictInsert d p.1 p.2) d) =
        match List.lookup k ps.reverse with
        | some v => some v
        | none => List.lookup k d := by
  intro ps
  induction ps with
  | nil => intro d; rfl
  | cons p rest ih =>
    intro d
    simp only [List.foldl_cons, List.reverse_cons]
    rw [ih (dictInsert d p.1 p.2), lookup_dictInsert, lookup_append]
    cases hl : List.lookup k rest.reverse
    · cases hk : k == p.1 <;> simp [List.lookup, hk]
    · simp

/-- A `pyDict` resolves a duplicated key to its last occurrence. -/
lemma lookup_pyDict (ps : List (String × String)) (k : String) :
    List.lookup k (pyDict ps) = List.lookup k ps.reverse := by
  rw [pyDict, lookup_foldl_dictInsert k ps []]
  cases hl : List.lookup k ps.reverse <;> simp

/-- Keys present after a dict assignment: the old keys, plus `k`. -/
lemma mem_keys_dictInsert (d : List (String × String)) (k v a : String)
    (h : a ∈ (dictInsert d k v).map Prod.fst) :
    a ∈ d.map Prod.fst ∨ a = k := by
  induction d with
  | nil => simp [dictInsert] at h; simp [h]
  | cons p rest ih =>
    cases hp : p.1 == k
    · rw [show dictInsert (p :: rest) k v = p :: dictInsert rest k v from by
        simp [dictInsert, hp]] at h
      simp only [List.map_cons, List.mem_cons] at h ⊢
      rcases h with h | h
      · exact Or.inl (Or.inl h)
      · rcases ih h with h' | h'
        · exact Or.inl (Or.inr h')
        · exact Or.inr h'
    · rw [show dictInsert (p :: rest) k v = (k, v) :: rest from by
        simp [dictInsert, hp]] at h
      simp only [List.map_cons, List.mem_cons] at h ⊢
      rcases h with h | h
      · exact Or.inr h
      · exact Or.inl (Or.inr h)

/-- Dict assignment preserves distinctness of keys. -/
lemma nodup_keys_dictInsert (d : List (String × String)) (k v : String)
    (h : (d.map Prod.fst).Nodup) :
    ((dictInsert d k v).map Prod.fst).Nodup := by
  induction d with
  | nil => simp [dictInsert]
  | cons p rest ih =>
    simp only [List.map_cons, List.nodup_cons] at h
    cases hp : p.1 == k
    · rw [show dictInsert (p :: rest) k v = p :: dictInsert rest k v from by
        simp [dictInsert, hp]]
      simp only [List.map_cons, List.nodup_cons]
      refine ⟨?_, ih h.2⟩
      intro hmem
      rcases mem_keys_dictInsert rest k v p.1 hmem with h' | h'
      · exact h.1 h'
      · rw [h'] at hp
        simp at hp
    · rw [show dictInsert (p :: rest) k v = (k, v) :: rest from by
        simp [dictInsert, hp]]
      simp only [List.map_cons, List.nodup_cons]
      have h1 : p.1 = k := eq_of_beq hp
      rw [← h1]
      exact h

/-- All keys of a Python dict are distinct. -/
lemma nodup_keys_pyDict (ps : List (String × String)) :
    ((pyDict ps).map Prod.fst).Nodup := by
  have hgen : ∀ (qs d : List (String × String)), (d.map Prod.fst).Nodup →
      (((qs.foldl (fun d p => dictInsert d p.1 p.2) d)).map Prod.fst).Nodup := by
    intro qs
    induction qs with
    | nil => intro d hd; exact hd
    | cons p rest ih =>
      intro d hd
      exact ih (dictInsert d p.1 p.2) (nodup_keys_dictInsert d p.1 p.2 hd)
  exact hgen ps [] (by simp)

/-- Index bound for the lease-table grouping: every read of a complete
group is in range. -/
lemma lease_index_lt {n idx : Nat} (h : idx < n / 5) : idx * 5 + 2 < n := by
  omega

/-- The lease-table grouping, characterized: a Python dict built from
the ordered (address, name) pairs of the complete 5-field groups. -/
lemma buildMac2name_eq (el : List String) :
    buildMac2name el = pyDict (leasePairs el) := by
  unfold buildMac2name leasePairs pyDict
  rw [List.foldl_map]
  apply List.foldl_ext
  intro d idx hidx
  have hlt : idx * 5 + 2 < el.length := lease_index_lt (List.mem_range.mp hidx)
  simp [hlt]

/-- The execution times recorded by `runCalls` are spaced by at least
`minInterval` between consecutive executions, for chronologically
ordered calls and an initial throttle state not later than the first
call. -/
lemma runCalls_execs_spaced (minInterval : Int) :
    ∀ (calls : List (Int × List String)) (ts : ThrottledScanner),
      List.Sorted (· ≤ ·) (calls.map Prod.fst) →
      (∀ t0, ts.lastRefreshAt = some t0 → ∀ p ∈ calls, t0 ≤ p.1) →
      List.Chain' (fun a b => minInterval ≤ b - a)
        (ts.lastRefreshAt.toList ++ (runCalls minInterval ts calls).2) := by
  intro calls
  induction calls with
  | nil =>
    intro ts _ _
    cases ts.lastRefreshAt <;> simp [runCalls]
  | cons c rest ih =>
    intro ts hsort hcompat
    simp only [List.map_cons, List.sorted_cons] at hsort
    cases hts : ts.lastRefreshAt with
    | none =>
      have hstep : (runCalls minInterval ts (c :: rest)).2 =
          c.1 :: (runCalls minInterval ⟨some c.1, c.2⟩ rest).2 := by
        simp [runCalls, throttledScan, hts]
      rw [hstep]
      have hih := ih ⟨some c.1, c.2⟩ hsort.2 (by
        intro t0 h0 p hp
        have hc : c.1 = t0 := by simpa using h0
        rw [← hc]
        exact hsort.1 p.1 (List.mem_map.mpr ⟨p, hp, rfl⟩))
      simpa using hih
    | some t0 =>
      by_cases hdue : minInterval ≤ c.1 - t0
      · have hstep : (runCalls minInterval ts (c :: rest)).2 =
            c.1 :: (runCalls minInterval ⟨some c.1, c.2⟩ rest).2 := by
          simp [runCalls, throttledScan, hts, hdue]
        rw [hstep]
        have hih := ih ⟨some c.1, c.2⟩ hsort.2 (by
          intro t1 h1 p hp
          have hc : c.1 = t1 := by simpa using h1
          rw [← hc]
          exact hsort.1 p.1 (List.mem_map.mpr ⟨p, hp, rfl⟩))
        simp only [Option.toList_some, List.singleton_append] at hih ⊢
        exact List.chain'_cons.mpr ⟨hdue, hih⟩
      · have hstep : (runCalls minInterval ts (c :: rest)).2 =
            (runCalls minInterval ts rest).2 := by
          simp [runCalls, throttledScan, hts, hdue]
        rw [hstep]
        have hih := ih ts hsort.2 (by
          intro t1 h1 p hp
          exact hcompat t1 h1 p (List.mem_cons_of_mem c hp))
        rw [hts] at hih
        exact hih

/-! ## Claim theorems -/

/-- C1 counterexample: the claim is false on the router-poll variant.
With a previously cached successful result and a refresh whose payload
parses to the single field `active_wireless` with empty value — a
payload in which the parser finds zero usable entries — the refresh
reports failure but the cache has been cleared to `[]`, not retained:
`self.last_results = []` runs before the `active_wireless` check. -/
theorem ddwrt_fail_open_counterexample :
    ddwrtUpdateInfoBody ⟨["AA:BB:CC:DD:EE:FF"], [], true⟩
        (.response 200 "\x7bactive_wireless::\x7d") =
      .ok (⟨[], [], true⟩, false) ∧
    ([] : List String) ≠ ["AA:BB:CC:DD:EE:FF"] := by
  exact ⟨rfl, by decide⟩

/-- C1 amended: the cached result is retained unchanged (and
`scan_devices` keeps returning it) when the refresh fails because of a
fetch timeout, a non-200 response (auth rejection included), a payload
parsing to zero fields, or a sweep probe-tool error; but in the
router-poll variant a payload that parses to a non-empty mapping whose
`active_wireless` field is missing (or empty) clears the cached result
to `[]` before the refresh reports failure. -/
theorem ddwrt_nmap_fail_open_amended :
    (∀ s : DdWrtState, ddwrtUpdateInfoBody s .timeout = .ok (s, false)) ∧
    (∀ (s : DdWrtState) (st : Nat) (b : String), st ≠ 200 →
      ddwrtUpdateInfoBody s (.response st b) = .ok (s, false)) ∧
    (∀ (s : DdWrtState) (b : String), parseDdwrtResponse b = [] →
      ddwrtUpdateInfoBody s (.response 200 b) = .ok (s, false)) ∧
    (∀ (s : DdWrtState) (b : String), s.success_init = true →
      parseDdwrtResponse b ≠ [] →
      List.lookup "active_wireless" (parseDdwrtResponse b) = none →
      ddwrtUpdateInfoBody s (.response 200 b) =
        .ok ({ s with last_results := [] }, false)) ∧
    (∀ (s : NmapState) (now1 now2 : Int) (arp : String → Option String),
      nmapUpdateInfo s now1 now2 (fun _ => .error) arp = (s, false)) ∧
    (∀ s : DdWrtState, ddwrtScanDevices s .timeout = .ok (s.last_results, s)) := by
  refine ⟨?_, ?_, ?_, ?_, ?_, ?_⟩
  · intro s
    by_cases h : s.success_init = false
    · simp [ddwrtUpdateInfoBody, h]
    · simp [ddwrtUpdateInfoBody, h, ddwrtGetData]
  · intro s st b hst
    by_cases h : s.success_init = false
    · simp [ddwrtUpdateInfoBody, h]
    · simp [ddwrtUpdateInfoBody, h, ddwrtGetData, hst]
  · intro s b hb
    by_cases h : s.success_init = false
    · simp [ddwrtUpdateInfoBody, h]
    · simp [ddwrtUpdateInfoBody, h, ddwrtGetData, hb]
  · intro s b hs hne hl
    simp [ddwrtUpdateInfoBody, hs, ddwrtGetData, hl,
      List.isEmpty_eq_true, hne]
  · intro s now1 now2 arp
    rfl
  · intro s
    by_cases h : s.success_init = false
    · simp [ddwrtScanDevices, ddwrtUpdateInfoBody, h]
    · simp [ddwrtScanDevices, ddwrtUpdateInfoBody, h, ddwrtGetData]

/-- C1 witness: the amended theorem applied at a concrete scanner
state and a concrete parsed-but-unusable payload. -/
theorem ddwrt_nmap_fail_open_amended_witness :
    ddwrtUpdateInfoBody ⟨["AA:BB:CC:DD:EE:FF"], [], true⟩
        (.response 200 "\x7bfoo::bar\x7d") =
      .ok (⟨[], [], true⟩, false) :=
  ddwrt_nmap_fail_open_amended.2.2.2.1
    ⟨["AA:BB:CC:DD:EE:FF"], [], true⟩ "\x7bfoo::bar\x7d"
    rfl (by decide) (by decide)

/-- C3 counterexample: a refused connection is NOT part of the
failures `scan_devices` absorbs: `get_ddwrt_data` catches only
`requests.exceptions.Timeout`, so a `ConnectionError` propagates to
the caller of `scan_devices` as an exception. -/
theorem ddwrt_conn_refused_raises_counterexample :
    ddwrtScanDevices ⟨["AA:BB:CC:DD:EE:FF"], [], true⟩ .connRefused =
      .error .connectionError := rfl

/-- C3 amended: for a transport timeout, an auth rejection, any other
HTTP status, a malformed payload, or a sweep probe-tool error,
`scan_devices` and `get_device_name` return a value rather than
raising; a refused connection, however, propagates as an exception out
of the router-poll variant's `scan_devices` and `get_device_name`
(only the timeout exception is caught). -/
theorem scan_never_raises_amended :
    (∀ (s : DdWrtState) (f : FetchOutcome), f ≠ .connRefused →
      ∃ v, ddwrtScanDevices s f = .ok v) ∧
    (∀ (s : DdWrtState) (f : FetchOutcome) (d : String), f ≠ .connRefused →
      ∃ v, ddwrtGetDeviceName s f d = .ok v) ∧
    (∀ (s : NmapState) (now1 now2 : Int) (arp : String → Option String),
      (nmapScanDevices s now1 now2 (fun _ => .error) arp).1 =
        s.last_results.map (fun d => d.mac)) := by
  refine ⟨?_, ?_, ?_⟩
  · intro s f hf
    obtain ⟨r, hr⟩ := ddwrtUpdateInfoBody_ok s f hf
    exact ⟨(r.1.last_results, r.1), by simp [ddwrtScanDevices, hr]⟩
  · intro s f d hf
    exact ddwrtGetDeviceName_ok s f d hf
  · intro s now1 now2 arp
    rfl

/-- C3 witness: the amended theorem applied at a concrete state and a
concrete timed-out fetch. -/
theorem scan_never_raises_amended_witness :
    ∃ v, ddwrtScanDevices ⟨["AA:BB:CC:DD:EE:FF"], [], true⟩ .timeout = .ok v :=
  scan_never_raises_amended.1 ⟨["AA:BB:CC:DD:EE:FF"], [], true⟩ .timeout
    (by decide)

/-- C4 counterexample: the extraction keeps the surviving entries
VERBATIM — a lowercase MAC-shaped entry stays lowercase (no uppercase
normalization), and `_MAC_REGEX.match` is prefix-anchored, so an entry
that merely begins with a MAC shape is also kept although it does not
match the full hardware-address grammar. -/
theorem active_client_extract_counterexample :
    activeClientExtract
        "\x27aa:bb:cc:dd:ee:ff\x27,\x27AA:BB:CC:DD:EE:FFZZ\x27" =
      ["aa:bb:cc:dd:ee:ff", "AA:BB:CC:DD:EE:FFZZ"] ∧
    ("aa:bb:cc:dd:ee:ff" ≠ "AA:BB:CC:DD:EE:FF") := by
  exact ⟨by decide, by decide⟩

/-- C4 amended: the refresh strips surrounding whitespace and ALL
leading/trailing single-quote characters from the field, splits on the
quote-comma-quote delimiter, and keeps — verbatim, with no case
normalization — exactly those entries on which the prefix-anchored
hardware-address pattern succeeds; on the specification's concrete
input the result is exactly the two MAC-shaped entries, unchanged
(they happen to be uppercase already). -/
theorem active_client_extract_amended :
    (∀ (ac e : String),
      e ∈ activeClientExtract ac ↔
        e ∈ pySplit (stripChar '\x27' (pyStrip ac)) "\x27,\x27" ∧
          macRegexMatch e = true) ∧
    activeClientExtract
        "\x27AA:BB:CC:DD:EE:FF\x27,\x27not-a-mac\x27,\x2711:22:33:44:55:66\x27" =
      ["AA:BB:CC:DD:EE:FF", "11:22:33:44:55:66"] := by
  constructor
  · intro ac e
    simp [activeClientExtract, List.mem_filter]
  · decide

/-- C5 counterexample: case variants do NOT denote one DeviceId across
`get_device_name` lookups.  The sweep variant stores the discovered
address uppercased, and `get_device_name` compares the query
case-sensitively: the lowercase spelling of a stored device's address
fails to find it while the uppercase spelling succeeds. -/
theorem device_id_case_counterexample :
    nmapGetDeviceName ⟨[⟨"AA:BB:CC:DD:EE:FF", "host", "1.2.3.4", 3⟩], 5⟩
        "aa:bb:cc:dd:ee:ff" = none ∧
    nmapGetDeviceName ⟨[⟨"AA:BB:CC:DD:EE:FF", "host", "1.2.3.4", 3⟩], 5⟩
        "AA:BB:CC:DD:EE:FF" = some "host" := by
  exact ⟨rfl, rfl⟩

/-- C5 amended: the sweep variant uppercases probe-supplied hardware
addresses before storing them, so representations differing only in
case yield one and the same stored DeviceId in `scan_devices` results;
`get_device_name`, however, compares the queried string
case-sensitively against the stored uppercase form, and the
router-poll variant performs no normalization at all, storing and
comparing addresses verbatim. -/
theorem device_id_case_amended :
    (nmapFresh 7 (fun _ => none)
        [⟨"10.0.0.1", "up", ["h1"], some "aa:bb:cc:dd:ee:ff"⟩,
         ⟨"10.0.0.2", "up", ["h2"], some "Aa:Bb:Cc:Dd:Ee:Ff"⟩]).map
        (fun d => d.mac) =
      ["AA:BB:CC:DD:EE:FF", "AA:BB:CC:DD:EE:FF"] ∧
    nmapGetDeviceName ⟨[⟨"AA:BB:CC:DD:EE:FF", "host", "1.2.3.4", 3⟩], 5⟩
        "AA:BB:CC:DD:EE:FF" = some "host" ∧
    nmapGetDeviceName ⟨[⟨"AA:BB:CC:DD:EE:FF", "host", "1.2.3.4", 3⟩], 5⟩
        "aa:bb:cc:dd:ee:ff" = none ∧
    activeClientExtract "\x27aa:bb:cc:dd:ee:ff\x27" = ["aa:bb:cc:dd:ee:ff"] := by
  exact ⟨by decide, rfl, rfl, by decide⟩

/-- C6: the brace parser maps `\x7bfoo::bar\x7d\x7bbaz::1,2,3\x7d` to
the two-entry mapping, ignores unmatched surrounding text, resolves a
duplicate key to its last occurrence, and yields the empty mapping on
the unterminated input `\x7bfoo::bar` (the parser is a total function:
malformed input merely yields fewer entries). -/
theorem ddwrt_brace_parser_examples :
    parseDdwrtResponse "\x7bfoo::bar\x7d\x7bbaz::1,2,3\x7d" =
      [("foo", "bar"), ("baz", "1,2,3")] ∧
    parseDdwrtResponse "\x7bfoo::bar" = [] ∧
    parseDdwrtResponse "junk\x7bfoo::bar\x7djunk" = [("foo", "bar")] ∧
    parseDdwrtResponse "\x7bk::a\x7d\x7bk::b\x7d" = [("k", "b")] ∧
    List.lookup "foo" (parseDdwrtResponse "\x7bfoo::bar\x7d\x7bbaz::1,2,3\x7d") =
      some "bar" ∧
    List.lookup "baz" (parseDdwrtResponse "\x7bfoo::bar\x7d\x7bbaz::1,2,3\x7d") =
      some "1,2,3" := by
  refine ⟨by decide, by decide, by decide, by decide, by decide, by decide⟩

/-- C7: the lease-table grouping builds exactly the dict of the
ordered (address at offset 2, name at offset 0) pairs of the
⌊n/5⌋ complete groups; an incomplete trailing group of fewer than 5
elements is silently dropped; and the concrete 10-element table yields
exactly the two expected entries. -/
theorem lease_table_grouping :
    (∀ el : List String, buildMac2name el = pyDict (leasePairs el)) ∧
    (∀ xs ys : List String, xs.length % 5 = 0 → ys.length < 5 →
      buildMac2name (xs ++ ys) = buildMac2name xs) ∧
    buildMac2name ["n0", "a", "m0", "b", "c", "n1", "d", "m1", "e", "f"] =
      [("m0", "n0"), ("m1", "n1")] := by
  refine ⟨buildMac2name_eq, ?_, by decide⟩
  intro xs ys hx hy
  rw [buildMac2name_eq, buildMac2name_eq]
  unfold leasePairs
  have hlen : (xs ++ ys).length / 5 = xs.length / 5 := by
    simp only [List.length_append]
    omega
  rw [hlen]
  apply congrArg pyDict
  apply List.map_congr_left
  intro idx hidx
  have h2 : idx * 5 + 2 < xs.length := lease_index_lt (List.mem_range.mp hidx)
  have h0 : idx * 5 < xs.length := by omega
  rw [List.getD_append _ _ _ _ h2, List.getD_append _ _ _ _ h0]

/-- C7 witness: the truncation-tolerance conjunct applied to a
complete 5-field group followed by a 2-element trailing fragment. -/
theorem lease_table_grouping_witness :
    buildMac2name (["n0", "a", "m0", "b", "c"] ++ ["x", "y"]) =
      buildMac2name ["n0", "a", "m0", "b", "c"] :=
  lease_table_grouping.2.1 ["n0", "a", "m0", "b", "c"] ["x", "y"]
    (by decide) (by decide)

/-- C9: for a DeviceId already present in `mac2name`,
`get_device_name` answers from the index with the scanner state
unchanged and ZERO identity-resolution fetches, whatever the fetch
outcome would have been; hence two consecutive calls (the second on
the state the first returned) yield identical values and the second
performs no fetch.  (The sweep variant's `get_device_name` is a pure
lookup over `last_results` and performs no fetch by construction.) -/
theorem get_device_name_idempotent (s : DdWrtState) (f1 f2 : FetchOutcome)
    (device v : String) (h : List.lookup device s.mac2name = some v) :
    ddwrtGetDeviceName s f1 device = .ok (some v, s, 0) ∧
    ddwrtGetDeviceName s f2 device = .ok (some v, s, 0) := by
  have h1 : (List.lookup device s.mac2name).isSome := by simp [h]
  constructor <;> simp [ddwrtGetDeviceName, h1, h]

/-- C9 witness: a known id answered twice from the index with no
fetch, the second call even under a fetch outcome that would raise. -/
theorem get_device_name_idempotent_witness :
    ddwrtGetDeviceName ⟨[], [("AA:BB:CC:DD:EE:FF", "alpha")], true⟩ .timeout
        "AA:BB:CC:DD:EE:FF" =
      .ok (some "alpha", ⟨[], [("AA:BB:CC:DD:EE:FF", "alpha")], true⟩, 0) ∧
    ddwrtGetDeviceName ⟨[], [("AA:BB:CC:DD:EE:FF", "alpha")], true⟩ .connRefused
        "AA:BB:CC:DD:EE:FF" =
      .ok (some "alpha", ⟨[], [("AA:BB:CC:DD:EE:FF", "alpha")], true⟩, 0) :=
  get_device_name_idempotent ⟨[], [("AA:BB:CC:DD:EE:FF", "alpha")], true⟩
    .timeout .connRefused "AA:BB:CC:DD:EE:FF" "alpha" (by decide)

/-- C10: the rebuilt name index has pairwise-distinct keys (at most
one entry per hardware address), its lookup resolves to the LAST
complete group containing that address in payload order, and the
concrete table with a duplicated address at offsets 2 and 7 yields the
single entry named from the second group. -/
theorem lease_duplicate_last_wins :
    (∀ el : List String, ((buildMac2name el).map Prod.fst).Nodup) ∧
    (∀ (el : List String) (mac : String),
      List.lookup mac (buildMac2name el) =
        List.lookup mac (leasePairs el).reverse) ∧
    buildMac2name ["n0", "a", "m", "b", "c", "n1", "d", "m", "e", "f"] =
      [("m", "n1")] := by
  refine ⟨?_, ?_, by decide⟩
  · intro el
    rw [buildMac2name_eq]
    exact nodup_keys_pyDict (leasePairs el)
  · intro el mac
    rw [buildMac2name_eq]
    exact lookup_pyDict (leasePairs el) mac

/-- C2: with `minInterval = 5` and an injectable clock, any two
underlying refresh executions across a chronological call sequence
begin at least 5 apart; a call inside the throttle window executes no
refresh and returns the previously cached scan result unchanged; and
concretely two calls 1 apart trigger exactly one underlying refresh
while two calls 6 apart trigger two. -/
theorem throttle_min_interval :
    (∀ (calls : List (Int × List String)) (ts : ThrottledScanner),
      List.Sorted (· ≤ ·) (calls.map Prod.fst) →
      (∀ t0, ts.lastRefreshAt = some t0 → ∀ p ∈ calls, t0 ≤ p.1) →
      List.Pairwise (fun a b => (5 : Int) ≤ b - a) (runCalls 5 ts calls).2) ∧
    (∀ (ts : ThrottledScanner) (t0 now : Int) (fetched : List String),
      ts.lastRefreshAt = some t0 → now - t0 < 5 →
      scanDevicesThrottled 5 ts now fetched = (ts, ts.cache, false)) ∧
    (runCalls 5 ⟨none, []⟩ [(0, ["A"]), (1, ["B"])]).2 = [0] ∧
    (runCalls 5 ⟨none, []⟩ [(0, ["A"]), (6, ["B"])]).2 = [0, 6] ∧
    scanDevicesThrottled 5 ⟨some 0, ["A"]⟩ 1 ["B"] =
      (⟨some 0, ["A"]⟩, ["A"], false) := by
  refine ⟨?_, ?_, by decide, by decide, by decide⟩
  · intro calls ts hsort hcompat
    haveI : IsTrans Int (fun a b => (5 : Int) ≤ b - a) :=
      ⟨fun a b c h1 h2 => by omega⟩
    have hchain := runCalls_execs_spaced 5 calls ts hsort hcompat
    have hpair := List.chain'_iff_pairwise.mp hchain
    exact hpair.sublist (List.sublist_append_right _ _)
  · intro ts t0 now fetched h0 hwin
    simp [scanDevicesThrottled, throttledScan, h0, if_neg (by omega : ¬ (5 : Int) ≤ now - t0)]

/-- C2 witness: the pairwise-spacing conjunct applied to a concrete
three-call schedule (the third call lands inside the window and does
not execute). -/
theorem throttle_min_interval_witness :
    List.Pairwise (fun a b => (5 : Int) ≤ b - a)
      (runCalls 5 ⟨none, []⟩ [(0, ["A"]), (6, ["B"]), (7, ["C"])]).2 :=
  throttle_min_interval.1 [(0, ["A"]), (6, ["B"]), (7, ["C"])] ⟨none, []⟩
    (by decide) (by intro t0 h p hp; simp at h)

/-- C8: in the sweep variant with a positive home interval, a device
of the cached results whose last update lies strictly within the home
interval of the boundary clock reading is excluded from the probe's
target set (its ip is in the exclusion list handed to the probe), its
prior record appears verbatim in the cycle's result, and the cycle's
result is exactly the carried-over records followed by the freshly
probed ones. -/
theorem nmap_home_interval_exclusion (s : NmapState) (now1 now2 : Int)
    (hosts : List HostInfo) (arp : String → Option String) (d : Device)
    (hpos : 0 < s.home_interval) (hmem : d ∈ s.last_results)
    (hrecent : now1 - d.last_update < s.home_interval) :
    d.ip ∈ (nmapCarried s now1).map (fun d => d.ip) ∧
    d ∈ (nmapUpdateInfo s now1 now2 (fun _ => .ok hosts) arp).1.last_results ∧
    (nmapUpdateInfo s now1 now2 (fun _ => .ok hosts) arp).1.last_results =
      nmapCarried s now1 ++ nmapFresh now2 arp hosts := by
  have hne : s.home_interval ≠ 0 := by omega
  have hcar : d ∈ nmapCarried s now1 := by
    unfold nmapCarried
    rw [if_pos hne]
    refine List.mem_filter.mpr ⟨hmem, ?_⟩
    simp only [decide_eq_true_eq]
    omega
  refine ⟨List.mem_map.mpr ⟨d, hcar, rfl⟩, ?_, rfl⟩
  show d ∈ nmapCarried s now1 ++ nmapFresh now2 arp hosts
  exact List.mem_append.mpr (Or.inl hcar)

/-- C8 witness: a device last seen at time 9 with home interval 5 is
excluded from an empty probe's targets at boundary time 10 and carried
verbatim into the result. -/
theorem nmap_home_interval_exclusion_witness :
    "192.168.1.2" ∈
      (nmapCarried ⟨[⟨"AA:BB:CC:DD:EE:FF", "phone", "192.168.1.2", 9⟩], 5⟩ 10).map
        (fun d => d.ip) ∧
    (⟨"AA:BB:CC:DD:EE:FF", "phone", "192.168.1.2", 9⟩ : Device) ∈
      (nmapUpdateInfo ⟨[⟨"AA:BB:CC:DD:EE:FF", "phone", "192.168.1.2", 9⟩], 5⟩
        10 10 (fun _ => .ok []) (fun _ => none)).1.last_results ∧
    (nmapUpdateInfo ⟨[⟨"AA:BB:CC:DD:EE:FF", "phone", "192.168.1.2", 9⟩], 5⟩
        10 10 (fun _ => .ok []) (fun _ => none)).1.last_results =
      nmapCarried ⟨[⟨"AA:BB:CC:DD:EE:FF", "phone", "192.168.1.2", 9⟩], 5⟩ 10 ++
        nmapFresh 10 (fun _ => none) [] :=
  nmap_home_interval_exclusion
    ⟨[⟨"AA:BB:CC:DD:EE:FF", "phone", "192.168.1.2", 9⟩], 5⟩ 10 10 []
    (fun _ => none) ⟨"AA:BB:CC:DD:EE:FF", "phone", "192.168.1.2", 9⟩
    (by decide) (by simp) (by decide)

end HADeviceTracker
